import Mathlib

/-!
Verification of the achievement-viewer data reconciliation and comparison
engine. The definitions below are a shallow embedding, translated from the
repository sources:

  * processGameData / loadGamesFromAppIds / loadGamesFromData /
    loadGameDataWithCache and the gamesData map (GameLoader module);
  * compareAchievements / getComparisonStats (GameCompare.js);
  * the per-user counting pass of loadGameData (hub module).

JavaScript objects whose fields the pipeline reads are modelled as
structures over a small JavaScript value type, with absent properties
represented by the undefined value; keyed objects and the games Map are
association lists with the set-in-place-or-append update the JavaScript
runtime gives object assignment and Map.set.
-/

/-- JavaScript values as far as the achievement pipeline inspects them:
only undefined, null, booleans, (integer) numbers and strings occur. -/
inductive JSVal where
  | undefined
  | null
  | bool (b : Bool)
  | num (n : Int)
  | str (s : String)
deriving DecidableEq

/-- JavaScript truthiness for the values of JSVal. -/
def truthy : JSVal → Bool
  | .undefined => false
  | .null => false
  | .bool b => b
  | .num n => n != 0
  | .str s => s != ""

/-- The JavaScript expression a || b: a when a is truthy, b otherwise. -/
def jsOr (a b : JSVal) : JSVal := if truthy a then a else b

/-- JavaScript string coercion, as used for object keys and toString. -/
def jsKeyString : JSVal → String
  | .undefined => "undefined"
  | .null => "null"
  | .bool true => "true"
  | .bool false => "false"
  | .num n => toString n
  | .str s => s

/-- One achievement-shaped JavaScript object: the union of every property
name the repository reads from a schema entry or from a user-state (save)
entry. A property the wire payload does not carry is undefined. -/
structure AchEntry where
  earned : JSVal := .undefined
  unlocked : JSVal := .undefined
  achieved : JSVal := .undefined
  earned_time : JSVal := .undefined
  unlock_time : JSVal := .undefined
  unlocktime : JSVal := .undefined
  name : JSVal := .undefined
  displayName : JSVal := .undefined
  description : JSVal := .undefined
  desc : JSVal := .undefined
  hidden : JSVal := .undefined
  icon : JSVal := .undefined
  icongray : JSVal := .undefined
  icon_gray : JSVal := .undefined
  percent : JSVal := .undefined
  group : JSVal := .undefined
deriving DecidableEq

/-- A keyed JavaScript object mapping achievement keys to entries,
in property-insertion order. -/
abbrev JSObj := List (String × AchEntry)

/-- Property read m[k]: the first entry with the given key. -/
def objLookup (m : JSObj) (k : String) : Option AchEntry :=
  (m.find? (fun p => p.1 == k)).map (fun p => p.2)

/-- Keyed assignment m[k] = v (also JavaScript Map.set): an existing key
keeps its position and gets the new value, a new key is appended. -/
def setKey {α : Type} (m : List (String × α)) (k : String) (v : α) :
    List (String × α) :=
  if m.any (fun p => p.1 == k) then
    m.map (fun p => if p.1 == k then (k, v) else p)
  else m ++ [(k, v)]

/-- The game-info.json object as processGameData reads it: metadata
fields, an optional blacklist array and an optional achievements schema.
A present-but-empty schema is some [] and is distinct from an absent one,
matching the distinction between an empty object (truthy) and an absent
property (undefined) in the source. -/
structure GameInfo where
  name : JSVal := .undefined
  icon : JSVal := .undefined
  uses_db : JSVal := .undefined
  platform : JSVal := .undefined
  blacklist : Option (List String) := none
  achievements : Option (List (String × AchEntry)) := none
deriving DecidableEq

/-- The achievementsData argument of processGameData: either an object
carrying a truthy achievements property (the code then uses that inner
object) or a plain keyed object used directly, per the line
achData = achievementsData.achievements || achievementsData. -/
inductive RawAchData where
  | wrapped (achievements : JSObj)
  | plain (obj : JSObj)
deriving DecidableEq

/-- The object processGameData actually iterates. -/
def rawEntries : RawAchData → JSObj
  | .wrapped m => m
  | .plain m => m

/-- The expression gameInfo?.blacklist || [] of processGameData. -/
def effBlacklist : Option GameInfo → List String
  | some gi => gi.blacklist.getD []
  | none => []

/-- The unlock-state chain userAch.earned || userAch.unlocked ||
userAch.achieved || false from processGameData. -/
def resolveUnlocked (u : AchEntry) : JSVal :=
  jsOr u.earned (jsOr u.unlocked (jsOr u.achieved (.bool false)))

/-- The unlock-time chain userAch.earned_time || userAch.unlock_time ||
userAch.unlocktime || 0 from processGameData. -/
def resolveUnlockTime (u : AchEntry) : JSVal :=
  jsOr u.earned_time (jsOr u.unlock_time (jsOr u.unlocktime (.num 0)))

/-- The canonical achievement record pushed by processGameData. -/
structure CanonAch where
  apiname : String
  name : JSVal
  description : JSVal
  hidden : JSVal
  icon : JSVal
  icongray : JSVal
  unlocked : JSVal
  unlocktime : JSVal
  rarity : JSVal
  group : JSVal
deriving DecidableEq

/-- Schema-driven body of the loop over gameInfo.achievements in
processGameData: skip blacklisted keys, merge schema metadata with the
looked-up user state. -/
def schemaAch (achData : JSObj) (blacklist : List String)
    (key : String) (achInfo : AchEntry) : Option CanonAch :=
  if key ∈ blacklist then none
  else
    let userAch := objLookup achData key
    some
      { apiname := key
      , name := jsOr achInfo.name (.str key)
      , description := jsOr achInfo.description (.str "")
      , hidden := jsOr achInfo.hidden (.bool false)
      , icon := jsOr achInfo.icon (.str "")
      , icongray := jsOr achInfo.icongray (jsOr achInfo.icon (.str ""))
      , unlocked :=
          match userAch with
          | some u => resolveUnlocked u
          | none => .bool false
      , unlocktime :=
          match userAch with
          | some u => resolveUnlockTime u
          | none => .num 0
      , rarity := jsOr achInfo.percent .null
      , group := jsOr achInfo.group .null }

/-- Save-driven body of the loop over achData in processGameData: skip
blacklisted keys, build the record from user-state fields alone. -/
def saveAch (blacklist : List String)
    (key : String) (ach : AchEntry) : Option CanonAch :=
  if key ∈ blacklist then none
  else
    some
      { apiname := key
      , name := jsOr ach.name (jsOr ach.displayName (.str key))
      , description := jsOr ach.description (jsOr ach.desc (.str ""))
      , hidden := jsOr ach.hidden (.bool false)
      , icon := jsOr ach.icon (.str "")
      , icongray := jsOr ach.icongray (jsOr ach.icon_gray (jsOr ach.icon (.str "")))
      , unlocked := resolveUnlocked ach
      , unlocktime := resolveUnlockTime ach
      , rarity := jsOr ach.percent .null
      , group := jsOr ach.group .null }

/-- The achievements list built by processGameData: the schema-driven
loop when gameInfo and gameInfo.achievements are both present (the
latter being truthy even as an empty object), the save-driven loop over
achData otherwise. -/
def processAchievements (achievementsData : RawAchData)
    (gameInfo : Option GameInfo) : List CanonAch :=
  let achData := rawEntries achievementsData
  let blacklist := effBlacklist gameInfo
  match gameInfo with
  | some gi =>
    match gi.achievements with
    | some schemaList =>
        schemaList.filterMap (fun kv => schemaAch achData blacklist kv.1 kv.2)
    | none => achData.filterMap (fun kv => saveAch blacklist kv.1 kv.2)
  | none => achData.filterMap (fun kv => saveAch blacklist kv.1 kv.2)

/-- The canonical game record processGameData stores in gamesData. -/
structure CanonGame where
  appId : String
  name : JSVal
  icon : JSVal
  achievements : List CanonAch
  usesDb : JSVal
  platform : JSVal
deriving DecidableEq

/-- Optional-chaining read gameInfo?.f. -/
def optField (gameInfo : Option GameInfo) (f : GameInfo → JSVal) : JSVal :=
  match gameInfo with
  | some gi => f gi
  | none => .undefined

/-- The record literal of the gamesData.set call in processGameData,
with the documented metadata defaults. -/
def mkCanonGame (appId : String) (achievementsData : RawAchData)
    (gameInfo : Option GameInfo) : CanonGame :=
  { appId := appId
  , name := jsOr (optField gameInfo GameInfo.name) (.str ("Game " ++ appId))
  , icon := jsOr (optField gameInfo GameInfo.icon) (.str "")
  , achievements := processAchievements achievementsData gameInfo
  , usesDb := jsOr (optField gameInfo GameInfo.uses_db) (.bool false)
  , platform := jsOr (optField gameInfo GameInfo.platform) JSVal.null }

/-- The module-level gamesData Map keyed by appId, insertion ordered. -/
abbrev GamesMap := List (String × CanonGame)

/-- processGameData: build the canonical game and gamesData.set it. -/
def processGameData (appId : String) (achievementsData : RawAchData)
    (gameInfo : Option GameInfo) (gamesData : GamesMap) : GamesMap :=
  setKey gamesData appId (mkCanonGame appId achievementsData gameInfo)

/-- One element of a legacy (array form) achievements payload, as read by
the conversion loops in loadGamesFromAppIds and loadOwnGameData. -/
structure LegacyEntry where
  apiname : JSVal := .undefined
  achieved : JSVal := .undefined
  unlocktime : JSVal := .undefined
deriving DecidableEq

/-- The legacy-array conversion of loadGamesFromAppIds (and, identically,
loadOwnGameData): entries with a truthy apiname become keyed entries with
earned = (achieved === 1) and earned_time = unlocktime || 0. -/
def convertLegacy (arr : List LegacyEntry) : JSObj :=
  arr.foldl
    (fun converted ach =>
      if truthy ach.apiname then
        setKey converted (jsKeyString ach.apiname)
          { earned := .bool (ach.achieved == JSVal.num 1)
          , earned_time := jsOr ach.unlocktime (.num 0) }
      else converted)
    []

/-- Keyed mapping the spec calls equivalent to a legacy array payload:
each entry with an apiname is keyed by that apiname, with earned derived
from achieved === 1 and earned_time from unlocktime defaulting to 0;
entries without an apiname are dropped. Stated from the wording of the
spec for the refinement claim C5, to be compared with convertLegacy. -/
def specLegacyEquiv (arr : List LegacyEntry) : JSObj :=
  arr.foldl
    (fun keyed ach =>
      if truthy ach.apiname then
        setKey keyed (jsKeyString ach.apiname)
          { earned := .bool (ach.achieved == JSVal.num 1)
          , earned_time := if truthy ach.unlocktime then ach.unlocktime else .num 0 }
      else keyed)
    []

/-- The strict test x === true || x === 1 used on unlock flags by
compareAchievements and by the hub counting pass. -/
def strictUnlockedFlag (v : JSVal) : Bool :=
  v == JSVal.bool true || v == JSVal.num 1

/-- The ownData argument of compareAchievements, as assembled by
loadOwnGameData (only the fields compareAchievements reads). -/
structure OwnData where
  achievementsData : JSObj
  blacklist : List String
deriving DecidableEq

/-- One comparison record: the spread of the reference achievement plus
status and the two unlock times. -/
structure CompRecord where
  ach : CanonAch
  status : String
  yourUnlockTime : JSVal
  theirUnlockTime : JSVal
deriving DecidableEq

/-- The value of youHave in compareAchievements for one achievement:
ownAch ? (ownAch.earned === true || ownAch.earned === 1) : false. -/
def youHaveOf (own : OwnData) (achievement : CanonAch) : Bool :=
  match objLookup own.achievementsData achievement.apiname with
  | some ownAch => strictUnlockedFlag ownAch.earned
  | none => false

/-- The loop body of compareAchievements for one reference achievement:
none when the key is in the other blacklist, otherwise the pushed record. -/
def compareOne (own : OwnData) (achievement : CanonAch) : Option CompRecord :=
  if achievement.apiname ∈ own.blacklist then none
  else
    let ownAch := objLookup own.achievementsData achievement.apiname
    let theyHave := strictUnlockedFlag achievement.unlocked
    let youHave := youHaveOf own achievement
    let status : String :=
      if theyHave && youHave then "both-unlocked"
      else if theyHave && !youHave then "they-only"
      else if !theyHave && youHave then "you-only"
      else "both-locked"
    some
      { ach := achievement
      , status := status
      , yourUnlockTime :=
          match ownAch with
          | some o => jsOr o.earned_time (jsOr o.unlock_time (jsOr o.unlocktime (.num 0)))
          | none => .num 0
      , theirUnlockTime := jsOr achievement.unlocktime (.num 0) }

/-- The result object of compareAchievements. -/
structure CompareResult where
  hasData : Bool
  comparison : List CompRecord
deriving DecidableEq

/-- compareAchievements from GameCompare.js: the no-data terminal state
for a null ownData, otherwise one record per non-excluded reference
achievement, in reference order. -/
def compareAchievements (theirGame : CanonGame) (ownData : Option OwnData) :
    CompareResult :=
  match ownData with
  | none => { hasData := false, comparison := [] }
  | some own =>
      { hasData := true
      , comparison := theirGame.achievements.filterMap (compareOne own) }

/-- The statistics object of getComparisonStats. -/
structure CompStats where
  bothUnlocked : Nat
  youOnly : Nat
  theyOnly : Nat
  bothLocked : Nat
  yourTotal : Nat
  theirTotal : Nat
  total : Nat
deriving DecidableEq

/-- getComparisonStats from GameCompare.js: per-status filter counts and
the derived totals. -/
def getComparisonStats (comparison : List CompRecord) : CompStats :=
  let bothUnlocked := (comparison.filter (fun a => a.status == "both-unlocked")).length
  let youOnly := (comparison.filter (fun a => a.status == "you-only")).length
  let theyOnly := (comparison.filter (fun a => a.status == "they-only")).length
  let bothLocked := (comparison.filter (fun a => a.status == "both-locked")).length
  { bothUnlocked := bothUnlocked
  , youOnly := youOnly
  , theyOnly := theyOnly
  , bothLocked := bothLocked
  , yourTotal := bothUnlocked + youOnly
  , theirTotal := bothUnlocked + theyOnly
  , total := comparison.length }

/-- The hasFullSchema test of the hub loadGameData pass: gameInfo and
gameInfo.achievements present with at least one key. -/
def hasFullSchema : Option GameInfo → Bool
  | some gi =>
    match gi.achievements with
    | some schemaList => decide (0 < schemaList.length)
    | none => false
  | none => false

/-- The per-game counting result of the hub loadGameData pass. -/
structure CountResult where
  totalCount : Nat
  earnedCount : Nat
  canDeterminePerfect : Bool
deriving DecidableEq

/-- The per-game counting pass of the hub loadGameData: schema-driven
counting over non-blacklisted schema keys when hasFullSchema holds,
save-driven counting over the save keys otherwise. -/
def countGame (gameAchievements : JSObj) (gameInfo : Option GameInfo) :
    CountResult :=
  let blacklist := effBlacklist gameInfo
  if hasFullSchema gameInfo then
    let schemaKeys :=
      (match gameInfo with
       | some gi => gi.achievements.getD []
       | none => []).map Prod.fst
    let validSchemaKeys := schemaKeys.filter (fun key => !blacklist.contains key)
    { totalCount := validSchemaKeys.length
    , earnedCount :=
        (validSchemaKeys.filter (fun key =>
          match objLookup gameAchievements key with
          | some userAch => strictUnlockedFlag userAch.earned
          | none => false)).length
    , canDeterminePerfect := true }
  else
    let saveKeys := gameAchievements.map Prod.fst
    { totalCount := saveKeys.length
    , earnedCount :=
        (saveKeys.filter (fun key =>
          match objLookup gameAchievements key with
          | some userAch => strictUnlockedFlag userAch.earned
          | none => false)).length
    , canDeterminePerfect := false }

/-- One element of the combined game-data.json games array, as consumed
by loadGamesFromData. -/
structure GameJson where
  appid : JSVal := .undefined
  achievements : RawAchData := .plain []
  info : Option GameInfo := none
deriving DecidableEq

/-- The parsed wire shape of a fetched game-data.json payload: a bare
array (old format), an object whose games property is an array (new
format, with its last_updated value), or anything else (malformed). -/
inductive WirePayload where
  | arr (games : List GameJson)
  | gamesObj (games : List GameJson) (last_updated : JSVal)
  | malformed
deriving DecidableEq

/-- The two localStorage slots of the loader, for one user. The data slot
holds the JSON-serialized games array; JSON parse of JSON stringify is
the identity on these values, so the slot is modelled by the games list
it serializes. -/
structure CacheState where
  cachedTimestamp : Option String := none
  cachedGames : Option (List GameJson) := none
deriving DecidableEq

/-- The response of the range-limited smart-check fetch: its HTTP status,
its text (first bytes), and its parsed JSON body for the 200 branch
(none when json() would fail). The whole response is absent when the
fetch itself fails. -/
structure RangeResp where
  status : Nat
  text : String
  body : Option WirePayload := none

/-- What one loadGameDataWithCache run produces: the returned games list
or the propagated failure, whether the full (non-range) fetch was
performed, and the localStorage state afterwards. -/
structure LoadOutcome where
  result : Except Unit (List GameJson)
  didFullFetch : Bool
  cacheAfter : CacheState

/-- Whitespace class of the timestamp pattern. -/
def isJsSpace (c : Char) : Bool :=
  c = ' ' || c = '\t' || c = '\n' || c = '\r'

/-- The literal part of the timestamp pattern. -/
def tsLit : List Char := "\"last_updated\":".toList

/-- One attempt of the timestamp pattern at the head of the text:
the literal, then whitespace, then at least one digit. -/
def matchTsHere (cs : List Char) : Option String :=
  if tsLit.isPrefixOf cs then
    let rest := (cs.drop tsLit.length).dropWhile isJsSpace
    let digits := rest.takeWhile Char.isDigit
    if digits.isEmpty then none else some (String.mk digits)
  else none

/-- First match of the timestamp pattern anywhere in the text, as the
regular-expression match of the smart check extracts it. -/
def findLastUpdated : List Char → Option String
  | [] => none
  | c :: rest =>
    match matchTsHere (c :: rest) with
    | some s => some s
    | none => findLastUpdated rest

/-- The fallback staleness window of the loader, in milliseconds. -/
def CACHE_MAX_AGE : Nat := 60 * 60 * 1000

/-- JavaScript parseInt on a base-10 timestamp string: the leading run
of digits, none when there is no leading digit (parseInt gives NaN). -/
def jsParseInt (s : String) : Option Nat :=
  let digits := s.toList.takeWhile Char.isDigit
  if digits.isEmpty then none
  else some (digits.foldl (fun acc c => acc * 10 + (c.toNat - 48)) 0)

/-- The catch block of loadGameDataWithCache: serve the cached games when
both slots are present and the cache age is within the window, otherwise
propagate the failure. An unparsable stored timestamp makes the age
comparison false, as NaN comparisons are in the source language. -/
def catchFallback (cache : CacheState) (now : Nat) (didFull : Bool) :
    LoadOutcome :=
  match cache.cachedGames, cache.cachedTimestamp with
  | some gs, some ts =>
    match jsParseInt ts with
    | some n =>
      if (now - n) * 1000 < CACHE_MAX_AGE then
        { result := .ok gs, didFullFetch := didFull, cacheAfter := cache }
      else
        { result := .error (), didFullFetch := didFull, cacheAfter := cache }
    | none => { result := .error (), didFullFetch := didFull, cacheAfter := cache }
  | _, _ => { result := .error (), didFullFetch := didFull, cacheAfter := cache }

/-- The format dispatch and cache update of loadGameDataWithCache: a bare
array is used without caching, a games object is used and cached when its
last_updated is truthy, and anything else raises the invalid-format error
(which the catch block then handles). -/
def dispatchWire (cache : CacheState) (data : WirePayload) (didFull : Bool)
    (now : Nat) : LoadOutcome :=
  match data with
  | .arr games => { result := .ok games, didFullFetch := didFull, cacheAfter := cache }
  | .gamesObj games lastUpdated =>
    if truthy lastUpdated then
      { result := .ok games
      , didFullFetch := didFull
      , cacheAfter :=
          { cachedTimestamp := some (jsKeyString lastUpdated)
          , cachedGames := some games } }
    else { result := .ok games, didFullFetch := didFull, cacheAfter := cache }
  | .malformed => catchFallback cache now didFull

/-- The full-fetch step of loadGameDataWithCache: a failed fetch raises
(handled by the catch block), a successful one goes to the dispatch. -/
def fullFetchPhase (cache : CacheState) (fullResp : Option WirePayload)
    (now : Nat) : LoadOutcome :=
  match fullResp with
  | none => catchFallback cache now true
  | some data => dispatchWire cache data true now

/-- loadGameDataWithCache: the range-limited smart check first; on a 206
with an extracted timestamp equal to the cached one (both slots present)
the cached games are returned with no further fetch; on a 200 the body is
used directly as the full payload; every other outcome of the smart check
falls back to the full fetch. -/
def loadGameDataWithCache (cache : CacheState) (rangeResp : Option RangeResp)
    (fullResp : Option WirePayload) (now : Nat) : LoadOutcome :=
  match rangeResp with
  | some r =>
    if r.status = 206 then
      match findLastUpdated r.text.toList with
      | some serverTimestamp =>
        match cache.cachedTimestamp, cache.cachedGames with
        | some cts, some gs =>
          if serverTimestamp = cts then
            { result := .ok gs, didFullFetch := false, cacheAfter := cache }
          else fullFetchPhase cache fullResp now
        | _, _ => fullFetchPhase cache fullResp now
      | none => fullFetchPhase cache fullResp now
    else if r.status = 200 then
      match r.body with
      | some data => dispatchWire cache data false now
      | none => fullFetchPhase cache fullResp now
    else fullFetchPhase cache fullResp now
  | none => fullFetchPhase cache fullResp now

/-- loadGamesFromData: drive processGameData over the combined list,
keying each game by the string coercion of its appid. -/
def loadGamesFromData (gameDataList : List GameJson) (gamesData : GamesMap) :
    GamesMap :=
  gameDataList.foldl
    (fun st g => processGameData (jsKeyString g.appid) g.achievements g.info st)
    gamesData

/-- The combined-file load path of init: fetch the combined payload
through the cache-aware loader, then aggregate; a loader failure is
surfaced (some ()) and leaves the gamesData collection untouched. -/
def loadAndAggregate (gamesData : GamesMap) (cache : CacheState)
    (rangeResp : Option RangeResp) (fullResp : Option WirePayload)
    (now : Nat) : GamesMap × Option Unit :=
  match (loadGameDataWithCache cache rangeResp fullResp now).result with
  | .ok games => (loadGamesFromData games gamesData, none)
  | .error e => (gamesData, some e)

def c2ach : CanonAch :=
  { apiname := "X", name := .str "X", description := .str ""
  , hidden := .bool false, icon := .str "", icongray := .str ""
  , unlocked := .bool true, unlocktime := .num 0
  , rarity := .null, group := .null }

def c2game : CanonGame :=
  { appId := "1", name := .str "G", icon := .str ""
  , achievements := [c2ach], usesDb := .bool false, platform := .null }

def c2own : OwnData := { achievementsData := [], blacklist := [] }

def c2rec : CompRecord :=
  { ach := c2ach, status := "they-only"
  , yourUnlockTime := .num 0, theirUnlockTime := .num 0 }

def c4info : GameInfo := { blacklist := some ["B"] }

def c4raw : RawAchData :=
  .plain [("A", { earned := .bool true }), ("B", { earned := .bool true })]

def c4out : CanonAch :=
  { apiname := "A", name := .str "A", description := .str ""
  , hidden := .bool false, icon := .str "", icongray := .str ""
  , unlocked := .bool true, unlocktime := .num 0
  , rarity := .null, group := .null }

def c6out : CanonAch :=
  { apiname := "A", name := .str "A", description := .str ""
  , hidden := .bool false, icon := .str "", icongray := .str ""
  , unlocked := .num 1, unlocktime := .num 0
  , rarity := .null, group := .null }

/-- Save-driven mode in the sense of the claim: schema absent, or present
but empty (the latter yields an empty canonical list, see C1). -/
def noFullSchema : Option GameInfo → Prop
  | none => True
  | some gi => gi.achievements = none ∨ gi.achievements = some []

def c7out : CanonAch :=
  { apiname := "B", name := .str "B", description := .str ""
  , hidden := .bool false, icon := .str "", icongray := .str ""
  , unlocked := .bool true, unlocktime := .num 500
  , rarity := .null, group := .null }

def c8games : List GameJson := [{ appid := JSVal.num 7 }]

def c8cache : CacheState :=
  { cachedTimestamp := some "42", cachedGames := some c8games }

def c8range : RangeResp :=
  { status := 206, text := "\"last_updated\": 42", body := none }

def c9st : GamesMap := [("5", mkCanonGame "5" (.plain []) none)]

def c9games : List GameJson := [{ appid := JSVal.num 9 }]

def c9cache : CacheState :=
  { cachedTimestamp := some "0", cachedGames := some c9games }

def c10game : CanonGame := mkCanonGame "2" (.plain []) none

def c10st : GamesMap := [("2", c10game), ("3", c10game)]

/-! Theorems -/

/-- Analysis of one compareAchievements loop step: the produced record
keeps the reference achievement and carries exactly the 2x2 status of
its (theyHave, youHave) pair. -/
theorem compareOne_eq_some {own : OwnData} {a : CanonAch} {r : CompRecord}
    (h : compareOne own a = some r) :
    r.ach = a ∧
    r.status =
      (if strictUnlockedFlag a.unlocked then
        if youHaveOf own a then "both-unlocked" else "they-only"
      else
        if youHaveOf own a then "you-only" else "both-locked") := by
  unfold compareOne at h
  by_cases hb : a.apiname ∈ own.blacklist
  · simp [hb] at h
  · rw [if_neg hb] at h
    injection h with h
    subst h
    refine ⟨rfl, ?_⟩
    cases ht : strictUnlockedFlag a.unlocked <;>
      cases hy : youHaveOf own a <;>
        simp [ht, hy]

/-- C2: for every comparison record produced by compareAchievements, the
status is exactly the 2x2 classification of the (theyHave, youHave) pair
of booleans, and no other status value ever occurs. -/
theorem comparisonStatus_table (g : CanonGame) (own : OwnData) (r : CompRecord)
    (hr : r ∈ (compareAchievements g (some own)).comparison) :
    r.status =
      (if strictUnlockedFlag r.ach.unlocked then
        if youHaveOf own r.ach then "both-unlocked" else "they-only"
      else
        if youHaveOf own r.ach then "you-only" else "both-locked")
    ∧ (r.status = "both-unlocked" ∨ r.status = "they-only" ∨
       r.status = "you-only" ∨ r.status = "both-locked") := by
  have hr' : r ∈ g.achievements.filterMap (compareOne own) := hr
  obtain ⟨a, -, hsome⟩ := List.mem_filterMap.mp hr'
  obtain ⟨hach, hst⟩ := compareOne_eq_some hsome
  subst hach
  refine ⟨hst, ?_⟩
  rw [hst]
  cases strictUnlockedFlag r.ach.unlocked <;>
    cases youHaveOf own r.ach <;> simp

/-- C2 witness: the reference user has X unlocked, the other side has no
data for it, and the produced record is classified they-only. -/
theorem comparisonStatus_table_case :
    c2rec.status =
      (if strictUnlockedFlag c2rec.ach.unlocked then
        if youHaveOf c2own c2rec.ach then "both-unlocked" else "they-only"
      else
        if youHaveOf c2own c2rec.ach then "you-only" else "both-locked")
    ∧ (c2rec.status = "both-unlocked" ∨ c2rec.status = "they-only" ∨
       c2rec.status = "you-only" ∨ c2rec.status = "both-locked") :=
  comparisonStatus_table c2game c2own c2rec (by decide)

/-- Every status in a produced comparison list is one of the four. -/
theorem comparison_status_mem (g : CanonGame) (ownData : Option OwnData)
    (r : CompRecord) (hr : r ∈ (compareAchievements g ownData).comparison) :
    r.status = "both-unlocked" ∨ r.status = "you-only" ∨
    r.status = "they-only" ∨ r.status = "both-locked" := by
  cases ownData with
  | none => simp [compareAchievements] at hr
  | some own =>
    have hr' : r ∈ g.achievements.filterMap (compareOne own) := hr
    obtain ⟨a, -, hsome⟩ := List.mem_filterMap.mp hr'
    obtain ⟨-, hst⟩ := compareOne_eq_some hsome
    rw [hst]
    cases strictUnlockedFlag a.unlocked <;>
      cases youHaveOf own a <;> simp

/-- A list each of whose statuses is among the four is partitioned by the
four status filters. -/
theorem four_filter_partition (l : List CompRecord)
    (h : ∀ r ∈ l, r.status = "both-unlocked" ∨ r.status = "you-only" ∨
         r.status = "they-only" ∨ r.status = "both-locked") :
    (l.filter (fun a => a.status == "both-unlocked")).length
      + (l.filter (fun a => a.status == "you-only")).length
      + (l.filter (fun a => a.status == "they-only")).length
      + (l.filter (fun a => a.status == "both-locked")).length = l.length := by
  induction l with
  | nil => simp
  | cons r t ih =>
    have ht := ih (fun x hx => h x (List.mem_cons_of_mem _ hx))
    have hr := h r (List.mem_cons_self _ _)
    rcases hr with h1 | h1 | h1 | h1 <;>
      simp [List.filter_cons, h1] <;> omega

/-- C3: for every comparison list produced by compareAchievements, the
four status counts of getComparisonStats sum to the total, the total is
the length of the list, and yourTotal and theirTotal are the documented
combinations. -/
theorem comparisonStats_sum (g : CanonGame) (ownData : Option OwnData) :
    (getComparisonStats (compareAchievements g ownData).comparison).bothUnlocked
      + (getComparisonStats (compareAchievements g ownData).comparison).youOnly
      + (getComparisonStats (compareAchievements g ownData).comparison).theyOnly
      + (getComparisonStats (compareAchievements g ownData).comparison).bothLocked
      = (getComparisonStats (compareAchievements g ownData).comparison).total
    ∧ (getComparisonStats (compareAchievements g ownData).comparison).total
      = (compareAchievements g ownData).comparison.length
    ∧ (getComparisonStats (compareAchievements g ownData).comparison).yourTotal
      = (getComparisonStats (compareAchievements g ownData).comparison).bothUnlocked
        + (getComparisonStats (compareAchievements g ownData).comparison).youOnly
    ∧ (getComparisonStats (compareAchievements g ownData).comparison).theirTotal
      = (getComparisonStats (compareAchievements g ownData).comparison).bothUnlocked
        + (getComparisonStats (compareAchievements g ownData).comparison).theyOnly := by
  refine ⟨?_, rfl, rfl, rfl⟩
  exact four_filter_partition ((compareAchievements g ownData).comparison)
    (comparison_status_mem g ownData)

/-- A schema-driven loop step only succeeds off the blacklist, and keeps
the schema key as apiname. -/
theorem schemaAch_not_black {achData : JSObj} {bl : List String}
    {k : String} {v : AchEntry} {a : CanonAch}
    (h : schemaAch achData bl k v = some a) : a.apiname = k ∧ k ∉ bl := by
  unfold schemaAch at h
  by_cases hb : k ∈ bl
  · simp [hb] at h
  · rw [if_neg hb] at h
    injection h with h
    subst h
    exact ⟨rfl, hb⟩

/-- A save-driven loop step only succeeds off the blacklist, and keeps
the save key as apiname. -/
theorem saveAch_not_black {bl : List String}
    {k : String} {v : AchEntry} {a : CanonAch}
    (h : saveAch bl k v = some a) : a.apiname = k ∧ k ∉ bl := by
  unfold saveAch at h
  by_cases hb : k ∈ bl
  · simp [hb] at h
  · rw [if_neg hb] at h
    injection h with h
    subst h
    exact ⟨rfl, hb⟩

/-- C4: no achievement whose key is in the blacklist ever appears in the
canonical list built by processGameData, in schema-driven as well as
save-driven mode. -/
theorem blacklist_excluded (raw : RawAchData) (gi : Option GameInfo)
    (a : CanonAch) (ha : a ∈ processAchievements raw gi) :
    a.apiname ∉ effBlacklist gi := by
  cases gi with
  | none =>
    intro hmem
    simp [effBlacklist] at hmem
  | some g =>
    obtain ⟨gn, gic, gu, gp, gb, gach⟩ := g
    cases gach with
    | some schemaList =>
      obtain ⟨kv, -, hsome⟩ := List.mem_filterMap.mp ha
      obtain ⟨hk, hnb⟩ := schemaAch_not_black hsome
      rw [hk]
      exact hnb
    | none =>
      obtain ⟨kv, -, hsome⟩ := List.mem_filterMap.mp ha
      obtain ⟨hk, hnb⟩ := saveAch_not_black hsome
      rw [hk]
      exact hnb

/-- C4 witness: with blacklist B, the surviving record A is not
blacklisted (and B produced no record at all). -/
theorem blacklist_excluded_case : c4out.apiname ∉ effBlacklist (some c4info) :=
  blacklist_excluded c4raw (some c4info) c4out (by decide)

/-- C5: normalizing a legacy array payload (which the loaders first run
through convertLegacy) gives exactly the same canonical result as
normalizing the keyed mapping the spec describes as equivalent. -/
theorem legacy_equiv_keyed (arr : List LegacyEntry) (appId : String)
    (gi : Option GameInfo) (st : GamesMap) :
    processGameData appId (.plain (convertLegacy arr)) gi st
      = processGameData appId (.plain (specLegacyEquiv arr)) gi st := by
  have h : convertLegacy arr = specLegacyEquiv arr := by
    unfold convertLegacy specLegacyEquiv jsOr
    rfl
  rw [h]

/-- C1 counterexample: a present-but-empty schema together with a
non-empty keyed user state yields an empty canonical list from
processGameData, while an absent schema yields a non-empty one — the
empty schema is NOT treated as absent by the normalizer. -/
theorem emptySchema_runs_schemaBranch :
    processAchievements (.plain [("A", { earned := JSVal.bool true })])
        (some { achievements := some [] }) = []
    ∧ processAchievements (.plain [("A", { earned := JSVal.bool true })]) none
        ≠ [] := by
  constructor
  · rfl
  · decide

/-- C1 (amended): in processGameData a present-but-empty schema takes the
schema-driven branch, so the canonical list is empty regardless of the
user-state mapping; only the hub counting pass (hasFullSchema) treats a
present-but-empty schema like an absent one and counts save-driven,
exactly as if no schema were present. -/
theorem emptySchema_amended (raw : RawAchData) (gi : GameInfo) (m : JSObj)
    (h : gi.achievements = some []) :
    processAchievements raw (some gi) = []
    ∧ countGame m (some gi) = countGame m none := by
  obtain ⟨gn, gic, gu, gp, gb, gach⟩ := gi
  cases h
  exact ⟨rfl, rfl⟩

/-- C1 witness: the amended statement at the counterexample input. -/
theorem emptySchema_amended_case :
    processAchievements (.plain [("A", { earned := JSVal.bool true })])
        (some { achievements := some [] }) = []
    ∧ countGame [("A", { earned := JSVal.bool true })]
        (some { achievements := some [] })
      = countGame [("A", { earned := JSVal.bool true })] none :=
  emptySchema_amended (.plain [("A", { earned := JSVal.bool true })])
    { achievements := some [] } [("A", { earned := JSVal.bool true })] rfl

/-- C6 counterexample: for a user-state entry with achieved = 1 (and no
earned/unlocked field), the canonical unlocked field built by
processGameData is the number 1, not a boolean — the claim that the
resulting unlocked field is always a boolean fails on the code, whose
|| chain returns the first truthy value itself. -/
theorem unlocked_not_always_bool :
    (processAchievements (.plain [("A", { achieved := JSVal.num 1 })]) none).map
        CanonAch.unlocked = [JSVal.num 1]
    ∧ JSVal.num 1 ≠ JSVal.bool true
    ∧ JSVal.num 1 ≠ JSVal.bool false := by
  refine ⟨rfl, ?_, ?_⟩ <;> decide

/-- Under unique keys, find? with key equality returns the stored pair.
JavaScript object keys are unique, so every association list that models
a parsed JSON object satisfies the Nodup hypothesis. -/
theorem find_first_of_nodup (m : JSObj) (k : String) (v : AchEntry)
    (hnd : (m.map Prod.fst).Nodup) (hmem : (k, v) ∈ m) :
    m.find? (fun p => p.1 == k) = some (k, v) := by
  induction m with
  | nil => cases hmem
  | cons hd t ih =>
    rw [List.map_cons, List.nodup_cons] at hnd
    rcases List.mem_cons.mp hmem with heq | hmem2
    · rw [List.find?_cons, ← heq]
      simp
    · have hk : hd.1 ≠ k := by
        intro hk
        exact hnd.1 (hk ▸ List.mem_map.mpr ⟨(k, v), hmem2, rfl⟩)
      rw [List.find?_cons]
      have : (hd.1 == k) = false := by
        simp [hk]
      rw [this]
      exact ih hnd.2 hmem2

/-- Under unique keys, the property read m[k] returns the entry stored
with key k. -/
theorem objLookup_of_mem (m : JSObj) (k : String) (v : AchEntry)
    (hnd : (m.map Prod.fst).Nodup) (hmem : (k, v) ∈ m) :
    objLookup m k = some v := by
  unfold objLookup
  rw [find_first_of_nodup m k v hnd hmem]
  rfl

/-- C6 (amended): the canonical unlocked field is resolved from the
user-state entry actually stored at the achievement's own key — the
entry's fields are checked in the order earned, then unlocked, then
achieved, the first truthy value winning as-is, and an absent entry
means the boolean false; the result is the winning field value itself,
so it is a boolean only when that field held a boolean (or when
everything was falsy, giving false). The Nodup hypothesis states that
the keyed payload has unique keys, as JavaScript objects always do. -/
theorem unlocked_resolution_order (raw : RawAchData) (gi : Option GameInfo)
    (a : CanonAch)
    (hnd : ((rawEntries raw).map Prod.fst).Nodup)
    (ha : a ∈ processAchievements raw gi) :
    a.unlocked =
      (match objLookup (rawEntries raw) a.apiname with
       | some u =>
         if truthy u.earned then u.earned
         else if truthy u.unlocked then u.unlocked
         else if truthy u.achieved then u.achieved
         else JSVal.bool false
       | none => JSVal.bool false) := by
  cases gi with
  | none =>
    obtain ⟨kv, hkv, hsome⟩ := List.mem_filterMap.mp ha
    obtain ⟨k, v⟩ := kv
    unfold saveAch at hsome
    by_cases hb : k ∈ effBlacklist none
    · simp [hb] at hsome
    · rw [if_neg hb] at hsome
      injection hsome with hsome
      subst hsome
      rw [objLookup_of_mem (rawEntries raw) k v hnd hkv]
      rfl
  | some g =>
    obtain ⟨gn, gic, gu, gp, gb, gach⟩ := g
    cases gach with
    | some schemaList =>
      obtain ⟨kv, -, hsome⟩ := List.mem_filterMap.mp ha
      obtain ⟨k, v⟩ := kv
      unfold schemaAch at hsome
      by_cases hb : k ∈ effBlacklist (some ⟨gn, gic, gu, gp, gb, some schemaList⟩)
      · simp [hb] at hsome
      · rw [if_neg hb] at hsome
        injection hsome with hsome
        subst hsome
        rfl
    | none =>
      obtain ⟨kv, hkv, hsome⟩ := List.mem_filterMap.mp ha
      obtain ⟨k, v⟩ := kv
      unfold saveAch at hsome
      by_cases hb : k ∈ effBlacklist (some ⟨gn, gic, gu, gp, gb, none⟩)
      · simp [hb] at hsome
      · rw [if_neg hb] at hsome
        injection hsome with hsome
        subst hsome
        rw [objLookup_of_mem (rawEntries raw) k v hnd hkv]
        rfl

/-- C6 witness: the amended resolution statement at the achieved = 1
entry, whose canonical unlocked value is the number 1, read from the
entry stored at key A. -/
theorem unlocked_resolution_order_case :
    c6out.unlocked =
      (match objLookup
          (rawEntries (RawAchData.plain [("A", { achieved := JSVal.num 1 })]))
          c6out.apiname with
       | some u =>
         if truthy u.earned then u.earned
         else if truthy u.unlocked then u.unlocked
         else if truthy u.achieved then u.achieved
         else JSVal.bool false
       | none => JSVal.bool false) :=
  unlocked_resolution_order (.plain [("A", { achieved := JSVal.num 1 })]) none
    c6out (by decide) (by decide)

/-- C7 counterexample: a save-driven user-state entry that itself carries
percent and group fields propagates them into the canonical record, so
rarity and group are NOT always null in save-driven mode — the source
reads ach.percent || null and ach.group || null from the save entry. -/
theorem saveMode_rarity_not_null :
    (processAchievements
        (.plain [("P", { percent := JSVal.num 50, group := JSVal.str "dlc" })])
        none).map CanonAch.rarity = [JSVal.num 50]
    ∧ (processAchievements
        (.plain [("P", { percent := JSVal.num 50, group := JSVal.str "dlc" })])
        none).map CanonAch.group = [JSVal.str "dlc"]
    ∧ JSVal.num 50 ≠ JSVal.null
    ∧ JSVal.str "dlc" ≠ JSVal.null := by
  refine ⟨rfl, rfl, ?_, ?_⟩ <;> decide

/-- C7 (amended): in save-driven mode every canonical achievement is
built from the user-state entry actually stored at its own key — name,
description and icongray resolve through the documented alias chains
over that entry, and rarity and group are that same entry's percent and
group fields, null when those are absent or falsy; in particular both
are null whenever the save data carries only unlock-state fields, but
they are not unconditionally null. The Nodup hypothesis states that the
keyed payload has unique keys, as JavaScript objects always do. -/
theorem saveMode_fields (raw : RawAchData) (gi : Option GameInfo)
    (a : CanonAch) (hgi : noFullSchema gi)
    (hnd : ((rawEntries raw).map Prod.fst).Nodup)
    (ha : a ∈ processAchievements raw gi) :
    ∃ u : AchEntry,
      objLookup (rawEntries raw) a.apiname = some u
      ∧ a.name =
        (if truthy u.name then u.name
         else if truthy u.displayName then u.displayName
         else .str a.apiname)
      ∧ a.description =
        (if truthy u.description then u.description
         else if truthy u.desc then u.desc
         else .str "")
      ∧ a.icongray =
        (if truthy u.icongray then u.icongray
         else if truthy u.icon_gray then u.icon_gray
         else if truthy u.icon then u.icon
         else .str "")
      ∧ a.rarity = (if truthy u.percent then u.percent else JSVal.null)
      ∧ a.group = (if truthy u.group then u.group else JSVal.null) := by
  cases gi with
  | none =>
    obtain ⟨kv, hkv, hsome⟩ := List.mem_filterMap.mp ha
    obtain ⟨k, v⟩ := kv
    unfold saveAch at hsome
    by_cases hb : k ∈ effBlacklist none
    · simp [hb] at hsome
    · rw [if_neg hb] at hsome
      injection hsome with hsome
      subst hsome
      exact ⟨v, objLookup_of_mem (rawEntries raw) k v hnd hkv,
        rfl, rfl, rfl, rfl, rfl⟩
  | some g =>
    obtain ⟨gn, gic, gu, gp, gb, gach⟩ := g
    rcases hgi with hgi | hgi
    · cases hgi
      obtain ⟨kv, hkv, hsome⟩ := List.mem_filterMap.mp ha
      obtain ⟨k, v⟩ := kv
      unfold saveAch at hsome
      by_cases hb : k ∈ effBlacklist (some ⟨gn, gic, gu, gp, gb, none⟩)
      · simp [hb] at hsome
      · rw [if_neg hb] at hsome
        injection hsome with hsome
        subst hsome
        exact ⟨v, objLookup_of_mem (rawEntries raw) k v hnd hkv,
          rfl, rfl, rfl, rfl, rfl⟩
    · cases hgi
      exact absurd ha (List.not_mem_nil a)

/-- C7 witness: the amended statement at a converted legacy-style save
entry carrying only unlock-state fields, stored at key B; rarity and
group come out null (the scenario-3 shape of the spec). -/
theorem saveMode_fields_case :
    ∃ u : AchEntry,
      objLookup
          (rawEntries (RawAchData.plain
            [("B", { earned := .bool true, earned_time := .num 500 })]))
          c7out.apiname = some u
      ∧ c7out.name =
        (if truthy u.name then u.name
         else if truthy u.displayName then u.displayName
         else .str c7out.apiname)
      ∧ c7out.description =
        (if truthy u.description then u.description
         else if truthy u.desc then u.desc
         else .str "")
      ∧ c7out.icongray =
        (if truthy u.icongray then u.icongray
         else if truthy u.icon_gray then u.icon_gray
         else if truthy u.icon then u.icon
         else .str "")
      ∧ c7out.rarity = (if truthy u.percent then u.percent else JSVal.null)
      ∧ c7out.group = (if truthy u.group then u.group else JSVal.null) :=
  saveMode_fields
    (.plain [("B", { earned := .bool true, earned_time := .num 500 })]) none
    c7out trivial (by decide) (by decide)

/-- C8: when both cache slots exist, the smart check answers 206, and the
extracted server timestamp equals the cached one, the loader performs no
full fetch and returns exactly the previously cached games list, with the
cache slots unchanged. -/
theorem smartCheck_usesCache (cache : CacheState) (fullResp : Option WirePayload)
    (now : Nat) (r : RangeResp) (ts : String) (gs : List GameJson)
    (h206 : r.status = 206)
    (hts : findLastUpdated r.text.toList = some ts)
    (hct : cache.cachedTimestamp = some ts)
    (hcg : cache.cachedGames = some gs) :
    loadGameDataWithCache cache (some r) fullResp now
      = { result := .ok gs, didFullFetch := false, cacheAfter := cache } := by
  have hts2 : findLastUpdated r.text.data = some ts := hts
  simp [loadGameDataWithCache, h206, hts2, hct, hcg]

/-- C8 witness: a concrete 206 smart check whose text parses to the
cached timestamp 42 serves the cached games with no full fetch. -/
theorem smartCheck_usesCache_case :
    loadGameDataWithCache c8cache (some c8range) none 0
      = { result := .ok c8games, didFullFetch := false, cacheAfter := c8cache } :=
  smartCheck_usesCache c8cache none 0 c8range "42" c8games rfl (by decide)
    rfl rfl

/-- C9 counterexample: with a fresh cached dataset in localStorage, a
malformed combined payload (neither recognized wire shape) is swallowed
by the catch block of loadGameDataWithCache, which serves the cached
games instead — no hard failure is surfaced for that data source, so the
unconditional claim fails on the code. -/
theorem malformed_with_fresh_cache_no_failure :
    loadGameDataWithCache c9cache none (some WirePayload.malformed) 0
      = { result := .ok c9games, didFullFetch := true, cacheAfter := c9cache }
    ∧ (loadAndAggregate c9st c9cache none (some WirePayload.malformed) 0).2
      = none := by
  exact ⟨rfl, rfl⟩

/-- C9 (amended): a malformed combined payload raises the invalid-format
error inside the loader; when no cached dataset exists the failure
propagates out of the load-and-aggregate driver and the games already
aggregated stay exactly as they were, while with a present, fresh cached
dataset the catch block swallows the error and the cached games are
served and aggregated instead. -/
theorem malformed_hard_failure (st : GamesMap) (cache : CacheState)
    (now : Nat) :
    (cache.cachedGames = none →
      loadAndAggregate st cache none (some WirePayload.malformed) now
        = (st, some ()))
    ∧ (∀ (gs : List GameJson) (ts : String) (n : Nat),
        cache.cachedGames = some gs → cache.cachedTimestamp = some ts →
        jsParseInt ts = some n → (now - n) * 1000 < CACHE_MAX_AGE →
        loadAndAggregate st cache none (some WirePayload.malformed) now
          = (loadGamesFromData gs st, none)) := by
  obtain ⟨cts, cgs⟩ := cache
  constructor
  · intro hc
    cases hc
    rfl
  · intro gs ts n hgs hts htn hfresh
    cases hgs
    cases hts
    simp [loadAndAggregate, loadGameDataWithCache, fullFetchPhase,
      dispatchWire, catchFallback, htn, hfresh]

/-- C9 witness: both amended cases at concrete inputs — with an empty
cache the failure is surfaced and the collection left untouched; with a
fresh cached copy the cached games are served and aggregated instead. -/
theorem malformed_hard_failure_case :
    loadAndAggregate c9st {} none (some WirePayload.malformed) 0
      = (c9st, some ())
    ∧ loadAndAggregate c9st c9cache none (some WirePayload.malformed) 0
      = (loadGamesFromData c9games c9st, none) :=
  ⟨(malformed_hard_failure c9st {} 0).1 rfl,
   (malformed_hard_failure c9st c9cache 0).2 c9games "0" 0 rfl rfl rfl
     (by decide)⟩

/-- C10: re-aggregating an appId already present in the gamesData Map
rewrites exactly that entry in place with the freshly built canonical
game, preserving its original insertion position and leaving every other
entry (and the whole key iteration order) unchanged. -/
theorem reaggregate_in_place (st : GamesMap) (appId : String)
    (raw : RawAchData) (gi : Option GameInfo)
    (h : ∃ g, (appId, g) ∈ st) :
    processGameData appId raw gi st
      = st.map (fun p =>
          if p.1 = appId then (appId, mkCanonGame appId raw gi) else p)
    ∧ (processGameData appId raw gi st).map Prod.fst = st.map Prod.fst := by
  obtain ⟨g, hg⟩ := h
  have hany : st.any (fun p => p.1 == appId) = true :=
    List.any_eq_true.mpr ⟨(appId, g), hg, by simp⟩
  have hmain : processGameData appId raw gi st
      = st.map (fun p =>
          if p.1 = appId then (appId, mkCanonGame appId raw gi) else p) := by
    unfold processGameData setKey
    rw [if_pos hany]
    apply List.map_congr_left
    intro p _
    by_cases hp : p.1 = appId
    · simp [hp]
    · simp [hp]
  refine ⟨hmain, ?_⟩
  rw [hmain, List.map_map]
  apply List.map_congr_left
  intro p _
  by_cases hp : p.1 = appId
  · simp [hp]
  · simp [hp]

/-- C10 witness: re-aggregating appId 2, already first in the Map,
replaces its record in place and keeps the key order [2, 3]. -/
theorem reaggregate_in_place_case :
    processGameData "2" (.plain [("A", { earned := JSVal.bool true })]) none c10st
      = c10st.map (fun p =>
          if p.1 = "2" then
            ("2", mkCanonGame "2" (.plain [("A", { earned := JSVal.bool true })]) none)
          else p)
    ∧ (processGameData "2" (.plain [("A", { earned := JSVal.bool true })]) none
        c10st).map Prod.fst = c10st.map Prod.fst :=
  reaggregate_in_place c10st "2" (.plain [("A", { earned := JSVal.bool true })])
    none ⟨c10game, by decide⟩
